import Mathlib

/-!
# SocialEcho: post controller

A shallow embedding of `server/controllers/post.controller.js`.

The persistent store is a record of four collections (users, communities,
posts, follow relationships), each a list of documents in insertion order.
Every request handler is a function from the store and the request data to the
store after the request together with the response that was sent.

Object ids and timestamps are natural numbers.  The relative-age rendering of
`createdAt` (`dayjs(..).fromNow()`) is a presentation step and is left out:
views carry the stored timestamp.
-/

namespace SocialEcho

abbrev ObjectId := Nat

/-- A user document: the fields the controller reads or populates. -/
structure User where
  _id : ObjectId
  name : String
  avatar : String
  savedPosts : List ObjectId
deriving DecidableEq

/-- A community document. -/
structure Community where
  _id : ObjectId
  name : String
  members : List ObjectId
deriving DecidableEq

/-- A post document. -/
structure Post where
  _id : ObjectId
  user : ObjectId
  community : ObjectId
  body : String
  fileUrl : Option String
  createdAt : Nat
  likes : List ObjectId
  comments : List ObjectId
deriving DecidableEq

/-- A follow edge. -/
structure Relationship where
  follower : ObjectId
  following : ObjectId
deriving DecidableEq

/-- The four collections the controller works on. -/
structure Store where
  users : List User
  communities : List Community
  posts : List Post
  relationships : List Relationship
deriving DecidableEq

/-- The result of `populate("user", "name avatar")`. -/
structure UserRef where
  _id : ObjectId
  name : String
  avatar : String
deriving DecidableEq

/-- The result of `populate("community", "name")`. -/
structure CommunityRef where
  _id : ObjectId
  name : String
deriving DecidableEq

/-- A post with `user` and `community` populated; a reference whose document
is missing populates to `none` (JavaScript `null`). -/
structure PostView where
  _id : ObjectId
  user : Option UserRef
  community : Option CommunityRef
  body : String
  fileUrl : Option String
  createdAt : Nat
  likes : List ObjectId
  comments : List ObjectId
deriving DecidableEq

/-- A post with only `community` populated, as in the saved list returned by
`saveOrUnsavePost`. -/
structure SavedPostView where
  _id : ObjectId
  user : ObjectId
  community : Option CommunityRef
  body : String
  fileUrl : Option String
  createdAt : Nat
  likes : List ObjectId
  comments : List ObjectId
deriving DecidableEq

/-- What a handler does with `res`. `page` is the paginated body
`{ formattedPosts, total }`; `noResponse` is a handler that returned `null`
without writing to `res`. -/
inductive Response where
  | post (status : Nat) (p : PostView)
  | likedPost (status : Nat) (p : PostView) (savedByCount : Nat)
  | page (status : Nat) (formattedPosts : List PostView) (total : Nat)
  | posts (status : Nat) (formattedPosts : List PostView)
  | savedList (status : Nat) (formattedPosts : List SavedPostView)
  | error (status : Nat) (message : String)
  | noResponse
deriving DecidableEq

/-! ## Store primitives -/

/-- The query `{ _id: communityId, members: userId }` on one community. -/
def isMemberOf (communityId userId : ObjectId) (c : Community) : Bool :=
  c._id == communityId && decide (userId ∈ c.members)

/-- `Community.find({ members: userId })` mapped to `_id`. -/
def communityIdsOf (s : Store) (userId : ObjectId) : List ObjectId :=
  (s.communities.filter (fun c => decide (userId ∈ c.members))).map (fun c => c._id)

/-- `Post.findById`. -/
def findPostById (s : Store) (id : ObjectId) : Option Post :=
  s.posts.find? (fun p => p._id == id)

/-- `User.findById`. -/
def findUserById (s : Store) (id : ObjectId) : Option User :=
  s.users.find? (fun u => u._id == id)

/-- `populate("user", "name avatar")` on one reference. -/
def populateUser (s : Store) (id : ObjectId) : Option UserRef :=
  (s.users.find? (fun u => u._id == id)).map
    (fun u => { _id := u._id, name := u.name, avatar := u.avatar })

/-- `populate("community", "name")` on one reference. -/
def populateCommunity (s : Store) (id : ObjectId) : Option CommunityRef :=
  (s.communities.find? (fun c => c._id == id)).map
    (fun c => { _id := c._id, name := c.name })

/-- `.populate("user", "name avatar").populate("community", "name")` on a post. -/
def populate (s : Store) (p : Post) : PostView :=
  { _id := p._id
    user := populateUser s p.user
    community := populateCommunity s p.community
    body := p.body
    fileUrl := p.fileUrl
    createdAt := p.createdAt
    likes := p.likes
    comments := p.comments }

/-- `.sort({ createdAt: -1 })`: newest first. -/
def sortNewestFirst (ps : List Post) : List Post :=
  ps.insertionSort (fun a b => b.createdAt ≤ a.createdAt)

/-- `.skip(n)` on a cursor. -/
def skipDocs (n : Nat) (ps : List Post) : List Post :=
  ps.drop n

/-- `.limit(n)` on a cursor. MongoDB treats a limit of `0` as no limit. -/
def limitDocs (n : Nat) (ps : List Post) : List Post :=
  if n = 0 then ps else ps.take n

/-- Modelled from the spec: the Post schema (`models/post.model.js`), which
gives a new document empty `likes` and `comments` and a server-assigned
creation timestamp `now`. -/
def newPostDoc (newId userId communityId : ObjectId) (body : String)
    (fileUrl : Option String) (now : Nat) : Post :=
  { _id := newId
    user := userId
    community := communityId
    body := body
    fileUrl := fileUrl
    createdAt := now
    likes := []
    comments := [] }

/-- `newPost.save()`: inserting a document whose `_id` is already taken is a
duplicate-key error (`none`). -/
def savePostDoc (s : Store) (p : Post) : Option Store :=
  if s.posts.any (fun q => q._id == p._id) then none
  else some { s with posts := s.posts ++ [p] }

/-! ## Handlers -/

/-- The attachment URL `createPost` stores: built from the first uploaded
file, `none` (JavaScript `null`) when nothing was uploaded. -/
def fileUrlOf (protocol host : String) (files : List String) : Option String :=
  match files.head? with
  | some filename => some (protocol ++ "://" ++ host ++ "/assets/userFiles/" ++ filename)
  | none => none

/-- `createPost`. `files` are the uploaded file names (`req.files`), `newId`
the id generated for the new document and `now` the time of the request. -/
def createPost (s : Store) (userId communityId : ObjectId) (body : String)
    (protocol host : String) (files : List String) (newId : ObjectId) (now : Nat) :
    Store × Response :=
  match s.communities.find? (isMemberOf communityId userId) with
  | none => (s, Response.error 401 "Unauthorized to post in this community")
  | some _ =>
    let fileUrl := fileUrlOf protocol host files
    match savePostDoc s (newPostDoc newId userId communityId body fileUrl now) with
    | none => (s, Response.error 500 "Error creating post")
    | some s1 =>
      match findPostById s1 newId with
      | none => (s1, Response.error 500 "Error creating post")
      | some post => (s1, Response.post 200 (populate s1 post))

/-- `getPosts`: the home feed. `limit` and `skip` are the query parameters,
`none` when omitted. -/
def getPosts (s : Store) (userId : ObjectId) (limit skip : Option Nat) : Store × Response :=
  let limit := limit.getD 10
  let skip := skip.getD 0
  let communityIds := communityIdsOf s userId
  let posts := limitDocs limit (skipDocs skip (sortNewestFirst
    (s.posts.filter (fun p => decide (p.community ∈ communityIds)))))
  let formattedPosts := posts.map (populate s)
  let totalPosts := (s.posts.filter (fun p => decide (p.community ∈ communityIds))).length
  (s, Response.page 200 formattedPosts totalPosts)

/-- `getCommunityPosts`: the feed of one community. -/
def getCommunityPosts (s : Store) (userId communityId : ObjectId) (limit skip : Option Nat) :
    Store × Response :=
  let limit := limit.getD 10
  let skip := skip.getD 0
  match s.communities.find? (isMemberOf communityId userId) with
  | none => (s, Response.error 401 "Unauthorized to view posts in this community")
  | some _ =>
    let posts := limitDocs limit (skipDocs skip (sortNewestFirst
      (s.posts.filter (fun p => p.community == communityId))))
    let formattedPosts := posts.map (populate s)
    let totalCommunityPosts := (s.posts.filter (fun p => p.community == communityId)).length
    (s, Response.page 200 formattedPosts totalCommunityPosts)

/-- `getFollowingUsersPosts`: posts of followed users in one community. -/
def getFollowingUsersPosts (s : Store) (userId communityId : ObjectId) : Store × Response :=
  let following := s.relationships.filter (fun r => r.follower == userId)
  let followingIds := following.map (fun relationship => relationship.following)
  let posts := limitDocs 20 (sortNewestFirst
    (s.posts.filter (fun p => decide (p.user ∈ followingIds) && p.community == communityId)))
  let formattedPosts := posts.map (populate s)
  (s, Response.posts 200 formattedPosts)

/-- The update operator `$addToSet` on an array field. -/
def addToSet (x : ObjectId) (xs : List ObjectId) : List ObjectId :=
  if x ∈ xs then xs else xs ++ [x]

/-- The update operator `$pull` on an array field. -/
def pull (x : ObjectId) (xs : List ObjectId) : List ObjectId :=
  xs.filter (fun y => y != x)

/-- Replace the first element that satisfies `filter` by its image under `f`. -/
def updateFirst {α : Type} (filter : α → Bool) (f : α → α) : List α → List α
  | [] => []
  | a :: as => if filter a then f a :: as else a :: updateFirst filter f as

/-- `Post.findOneAndUpdate(filter, update, { new: true })`: the first matching
post is updated in place and the updated document returned. -/
def findOneAndUpdatePost (s : Store) (filter : Post → Bool) (update : Post → Post) :
    Store × Option Post :=
  match s.posts.find? filter with
  | none => (s, none)
  | some p => ({ s with posts := updateFirst filter update s.posts }, some (update p))

/-- `User.findOneAndUpdate(filter, update, { new: true })`. -/
def findOneAndUpdateUser (s : Store) (filter : User → Bool) (update : User → User) :
    Store × Option User :=
  match s.users.find? filter with
  | none => (s, none)
  | some u => ({ s with users := updateFirst filter update s.users }, some (update u))

/-- `User.countDocuments({ savedPosts: postId })`, the count `populatePost`
attaches to a post. -/
def savedByCount (s : Store) (postId : ObjectId) : Nat :=
  s.users.countP (fun u => decide (postId ∈ u.savedPosts))

/-- `likePost`. -/
def likePost (s : Store) (id userId : ObjectId) : Store × Response :=
  match findOneAndUpdatePost s
      (fun p => p._id == id && !decide (userId ∈ p.likes))
      (fun p => { p with likes := addToSet userId p.likes }) with
  | (s1, none) => (s1, Response.error 404 "Post not found. It may have been deleted already")
  | (s1, some updatedPost) =>
    (s1, Response.likedPost 200 (populate s1 updatedPost) (savedByCount s1 updatedPost._id))

/-- `unlikePost`. -/
def unlikePost (s : Store) (id userId : ObjectId) : Store × Response :=
  match findOneAndUpdatePost s
      (fun p => p._id == id && decide (userId ∈ p.likes))
      (fun p => { p with likes := pull userId p.likes }) with
  | (s1, none) => (s1, Response.error 404 "Post not found. It may have been deleted already")
  | (s1, some updatedPost) =>
    (s1, Response.likedPost 200 (populate s1 updatedPost) (savedByCount s1 updatedPost._id))

/-- The view of one saved post: only `community` is populated. -/
def savedView (s : Store) (p : Post) : SavedPostView :=
  { _id := p._id
    user := p.user
    community := populateCommunity s p.community
    body := p.body
    fileUrl := p.fileUrl
    createdAt := p.createdAt
    likes := p.likes
    comments := p.comments }

/-- Populating the `savedPosts` path: ids in array order, ids without a
document dropped. -/
def populateSavedPosts (s : Store) (ids : List ObjectId) : List SavedPostView :=
  ids.filterMap (fun id => (findPostById s id).map (savedView s))

/-- `saveOrUnsavePost`: `operation` is the update operator name. -/
def saveOrUnsavePost (s : Store) (id userId : ObjectId) (operation : String) :
    Store × Response :=
  let update : User → User :=
    if operation = "$addToSet" then
      fun u => { u with savedPosts := addToSet id u.savedPosts }
    else
      fun u => { u with savedPosts := pull id u.savedPosts }
  match findOneAndUpdateUser s (fun u => u._id == userId) update with
  | (s1, none) => (s1, Response.error 404 "User not found")
  | (s1, some updatedUserPost) =>
    (s1, Response.savedList 200 (populateSavedPosts s1 updatedUserPost.savedPosts))

/-- `savePost`. -/
def savePost (s : Store) (id userId : ObjectId) : Store × Response :=
  saveOrUnsavePost s id userId "$addToSet"

/-- `unsavePost`. -/
def unsavePost (s : Store) (id userId : ObjectId) : Store × Response :=
  saveOrUnsavePost s id userId "$pull"

/-- `getSavedPosts`. -/
def getSavedPosts (s : Store) (userId : ObjectId) : Store × Response :=
  match findUserById s userId with
  | none => (s, Response.error 404 "User not found")
  | some user =>
    let communityIds := (communityIdsOf s userId).dedup
    let savedPosts := s.posts.filter
      (fun p => decide (p.community ∈ communityIds) && decide (p._id ∈ user.savedPosts))
    let formattedPosts := savedPosts.map (populate s)
    (s, Response.posts 200 formattedPosts)

/-- `getPublicPosts`: posts of `publicUserId` visible to a follower. -/
def getPublicPosts (s : Store) (currentUserId publicUserId : ObjectId) : Store × Response :=
  let isFollowing := s.relationships.any
    (fun r => r.follower == currentUserId && r.following == publicUserId)
  if !isFollowing then (s, Response.noResponse)
  else
    let commonCommunityIds := ((s.communities.filter
      (fun c => decide (currentUserId ∈ c.members) && decide (publicUserId ∈ c.members))).map
        (fun c => c._id)).dedup
    let publicPosts := limitDocs 10 (sortNewestFirst (s.posts.filter
      (fun p => decide (p.community ∈ commonCommunityIds) && p.user == publicUserId)))
    let formattedPosts := publicPosts.map (populate s)
    (s, Response.posts 200 formattedPosts)

/-! ## Example stores -/

/-- Store for the following-feed example: user 1 follows user 2, who posted
in community 10, of which only user 2 is a member. -/
def followStore : Store :=
  { users := [⟨1, "ann", "a.png", []⟩, ⟨2, "bob", "b.png", []⟩]
    communities := [⟨10, "chess", [2]⟩]
    posts := [⟨100, 2, 10, "hi", none, 5, [], []⟩]
    relationships := [⟨1, 2⟩] }

/-- Store for the like examples: post 100 is liked by user 1 only. -/
def likeStore : Store :=
  { users := [⟨1, "ann", "a.png", [100]⟩, ⟨2, "bob", "b.png", []⟩]
    communities := [⟨10, "chess", [1, 2]⟩]
    posts := [⟨100, 2, 10, "hi", none, 5, [1], []⟩]
    relationships := [] }

/-- Store for the saved-post and profile examples: user 1 follows user 2 and
has saved posts 100 and 200; both users are members of community 10, only
user 2 of community 20. -/
def feedStore : Store :=
  { users := [⟨1, "ann", "a.png", [100, 200]⟩, ⟨2, "bob", "b.png", []⟩]
    communities := [⟨10, "chess", [1, 2]⟩, ⟨20, "go", [2]⟩]
    posts := [⟨100, 2, 10, "hi", none, 5, [], []⟩, ⟨200, 2, 20, "yo", none, 6, [], []⟩,
      ⟨300, 2, 10, "ok", none, 7, [], []⟩]
    relationships := [⟨1, 2⟩] }

/-! ## Lemmas on the store primitives -/

theorem mem_communityIdsOf (s : Store) (v c : ObjectId) :
    c ∈ communityIdsOf s v ↔ ∃ com ∈ s.communities, com._id = c ∧ v ∈ com.members := by
  unfold communityIdsOf
  simp only [List.mem_map, List.mem_filter, decide_eq_true_eq]
  constructor
  · rintro ⟨com, ⟨hmem, hv⟩, rfl⟩
    exact ⟨com, hmem, rfl, hv⟩
  · rintro ⟨com, hmem, rfl, hv⟩
    exact ⟨com, ⟨hmem, hv⟩, rfl⟩

theorem find_isMemberOf_eq_none (s : Store) (c u : ObjectId) :
    s.communities.find? (isMemberOf c u) = none ↔
      ¬ ∃ com ∈ s.communities, com._id = c ∧ u ∈ com.members := by
  rw [List.find?_eq_none]
  simp only [isMemberOf, Bool.and_eq_true, beq_iff_eq, decide_eq_true_eq, not_exists, not_and]

theorem populateCommunity_of_exists (s : Store) (c : ObjectId)
    (h : ∃ com ∈ s.communities, com._id = c) :
    ∃ ref, populateCommunity s c = some ref ∧ ref._id = c := by
  unfold populateCommunity
  cases hf : s.communities.find? (fun com => com._id == c) with
  | none =>
    obtain ⟨com, hmem, hid⟩ := h
    rw [List.find?_eq_none] at hf
    exact absurd (by simpa using hid) (hf com hmem)
  | some com =>
    have := List.find?_some hf
    exact ⟨_, rfl, by simpa using this⟩

theorem sortNewestFirst_sorted (ps : List Post) :
    (sortNewestFirst ps).Sorted (fun a b => b.createdAt ≤ a.createdAt) := by
  unfold sortNewestFirst
  haveI : IsTotal Post (fun a b => b.createdAt ≤ a.createdAt) :=
    ⟨fun a b => Nat.le_total b.createdAt a.createdAt⟩
  haveI : IsTrans Post (fun a b => b.createdAt ≤ a.createdAt) :=
    ⟨fun _ _ _ hab hbc => Nat.le_trans hbc hab⟩
  exact List.sorted_insertionSort _ ps

theorem sortNewestFirst_perm (ps : List Post) : (sortNewestFirst ps).Perm ps :=
  List.perm_insertionSort _ ps

theorem mem_sortNewestFirst (ps : List Post) (p : Post) : p ∈ sortNewestFirst ps ↔ p ∈ ps :=
  (sortNewestFirst_perm ps).mem_iff

theorem mem_of_mem_limitDocs (n : Nat) (ps : List Post) (p : Post) (h : p ∈ limitDocs n ps) :
    p ∈ ps := by
  unfold limitDocs at h
  split at h
  · exact h
  · exact List.mem_of_mem_take h

theorem mem_of_mem_skipDocs (n : Nat) (ps : List Post) (p : Post) (h : p ∈ skipDocs n ps) :
    p ∈ ps :=
  List.mem_of_mem_drop h

/-! ## createPost -/

/-- C1: with a fresh document id, `createPost` answers 200 with the new post
exactly when some community with the given id has the author among its members;
in that case the post, with that author and community and empty likes and
comments, is appended to the store and returned; otherwise the answer is 401
and the store is unchanged. -/
theorem createPost_succeeds_iff_member (s : Store) (u c : ObjectId)
    (body protocol host : String) (files : List String) (newId : ObjectId) (now : Nat)
    (hfresh : ∀ p ∈ s.posts, p._id ≠ newId) :
    ((∃ v, (createPost s u c body protocol host files newId now).2 = Response.post 200 v) ↔
      ∃ com ∈ s.communities, com._id = c ∧ u ∈ com.members) ∧
    ((∃ com ∈ s.communities, com._id = c ∧ u ∈ com.members) →
      ∃ p : Post, p._id = newId ∧ p.user = u ∧ p.community = c ∧ p.body = body ∧
        p.createdAt = now ∧ p.likes = [] ∧ p.comments = [] ∧
        (createPost s u c body protocol host files newId now).1 =
          { s with posts := s.posts ++ [p] } ∧
        (createPost s u c body protocol host files newId now).2 =
          Response.post 200 (populate { s with posts := s.posts ++ [p] } p)) ∧
    ((¬ ∃ com ∈ s.communities, com._id = c ∧ u ∈ com.members) →
      createPost s u c body protocol host files newId now =
        (s, Response.error 401 "Unauthorized to post in this community")) := by
  have hany : s.posts.any (fun q => q._id == newId) = false := by
    rw [List.any_eq_false]
    intro q hq
    simpa using hfresh q hq
  have hfind : ∀ p : Post, p._id = newId →
      (s.posts ++ [p]).find? (fun q => q._id == newId) = some p := by
    intro p hp
    rw [List.find?_append]
    have : s.posts.find? (fun q => q._id == newId) = none := by
      rw [List.find?_eq_none]
      intro q hq
      simpa using hfresh q hq
    rw [this]
    simp [hp]
  cases hf : s.communities.find? (isMemberOf c u) with
  | none =>
    have hno := (find_isMemberOf_eq_none s c u).1 hf
    refine ⟨?_, fun h => absurd h hno, fun _ => ?_⟩
    · simp only [createPost, hf]
      constructor
      · rintro ⟨v, hv⟩
        cases hv
      · intro h
        exact absurd h hno
    · simp only [createPost, hf]
  | some com =>
    have hyes : ∃ com ∈ s.communities, com._id = c ∧ u ∈ com.members := by
      by_contra hno
      rw [(find_isMemberOf_eq_none s c u).2 hno] at hf
      cases hf
    have hrun : ∃ p : Post, p._id = newId ∧ p.user = u ∧ p.community = c ∧ p.body = body ∧
        p.createdAt = now ∧ p.likes = [] ∧ p.comments = [] ∧
        createPost s u c body protocol host files newId now =
          ({ s with posts := s.posts ++ [p] },
            Response.post 200 (populate { s with posts := s.posts ++ [p] } p)) := by
      refine ⟨newPostDoc newId u c body (fileUrlOf protocol host files) now, rfl, rfl, rfl, rfl, rfl, rfl, rfl, ?_⟩
      simp only [createPost, hf, savePostDoc, newPostDoc, hany, findPostById]
      simp only [Bool.false_eq_true, if_false]
      rw [hfind _ rfl]
    obtain ⟨p, h1, h2, h3, h4, h5, h6, h7, h8⟩ := hrun
    refine ⟨⟨fun _ => hyes, fun _ => ⟨_, by rw [h8]⟩⟩, fun _ => ?_, fun hno => absurd hyes hno⟩
    exact ⟨p, h1, h2, h3, h4, h5, h6, h7, by rw [h8], by rw [h8]⟩

/-- Witness for C1: user 2 posts in community 10 of `followStore` with the
unused id 101. -/
theorem createPost_succeeds_iff_member_witness :
    (∀ p ∈ followStore.posts, p._id ≠ 101) ∧
    (((∃ v, (createPost followStore 2 10 "yo" "http" "h" [] 101 9).2 = Response.post 200 v) ↔
      ∃ com ∈ followStore.communities, com._id = 10 ∧ 2 ∈ com.members) ∧
    ((∃ com ∈ followStore.communities, com._id = 10 ∧ 2 ∈ com.members) →
      ∃ p : Post, p._id = 101 ∧ p.user = 2 ∧ p.community = 10 ∧ p.body = "yo" ∧
        p.createdAt = 9 ∧ p.likes = [] ∧ p.comments = [] ∧
        (createPost followStore 2 10 "yo" "http" "h" [] 101 9).1 =
          { followStore with posts := followStore.posts ++ [p] } ∧
        (createPost followStore 2 10 "yo" "http" "h" [] 101 9).2 =
          Response.post 200 (populate { followStore with posts := followStore.posts ++ [p] } p)) ∧
    ((¬ ∃ com ∈ followStore.communities, com._id = 10 ∧ 2 ∈ com.members) →
      createPost followStore 2 10 "yo" "http" "h" [] 101 9 =
        (followStore, Response.error 401 "Unauthorized to post in this community"))) :=
  ⟨by decide, createPost_succeeds_iff_member followStore 2 10 "yo" "http" "h" [] 101 9 (by decide)⟩

/-! ## Feeds -/

theorem filter_member_communities (s : Store) (v : ObjectId) :
    s.posts.filter (fun p => decide (p.community ∈ communityIdsOf s v)) =
      s.posts.filter
        (fun p => decide (∃ com ∈ s.communities, com._id = p.community ∧ v ∈ com.members)) := by
  apply List.filter_congr
  intro p _
  rw [decide_eq_decide]
  exact mem_communityIdsOf s v p.community

/-- C2: the following feed returns to user 1 a post of community 10 although
user 1 is not a member of community 10. -/
theorem getFollowingUsersPosts_shows_non_member_post :
    getFollowingUsersPosts followStore 1 10 =
      (followStore, Response.posts 200 [populate followStore ⟨100, 2, 10, "hi", none, 5, [], []⟩]) ∧
    (populate followStore ⟨100, 2, 10, "hi", none, 5, [], []⟩).community = some ⟨10, "chess"⟩ ∧
    ¬ ∃ com ∈ followStore.communities, com._id = 10 ∧ 1 ∈ com.members := by
  decide

/-- C3: whatever `skip` and `limit` are, every post in the home feed of `v` is
a stored post whose community id is the id of a community that has `v` among
its members, and that is the community the returned view shows. -/
theorem getPosts_only_member_communities (s : Store) (v : ObjectId) (limit skip : Option Nat) :
    ∃ (docs : List Post) (total : Nat),
      getPosts s v limit skip = (s, Response.page 200 (docs.map (populate s)) total) ∧
      ∀ p ∈ docs, p ∈ s.posts ∧
        (∃ com ∈ s.communities, com._id = p.community ∧ v ∈ com.members) ∧
        ∃ ref, (populate s p).community = some ref ∧ ref._id = p.community := by
  refine ⟨_, _, rfl, ?_⟩
  intro p hp
  have h1 := mem_of_mem_skipDocs _ _ _ (mem_of_mem_limitDocs _ _ _ hp)
  rw [mem_sortNewestFirst, List.mem_filter, decide_eq_true_eq, mem_communityIdsOf] at h1
  obtain ⟨hmem, com, hcom, hid, hv⟩ := h1
  exact ⟨hmem, ⟨com, hcom, hid, hv⟩, populateCommunity_of_exists s p.community ⟨com, hcom, hid⟩⟩

/-- C4: the community feed answers with an error exactly when no community
with the requested id has the viewer among its members, and the error is then
401 with the store unchanged; otherwise every returned post is a stored post of
the requested community. -/
theorem getCommunityPosts_unauthorized_iff (s : Store) (v c : ObjectId)
    (limit skip : Option Nat) :
    ((∃ status message,
        (getCommunityPosts s v c limit skip).2 = Response.error status message) ↔
      ¬ ∃ com ∈ s.communities, com._id = c ∧ v ∈ com.members) ∧
    ((¬ ∃ com ∈ s.communities, com._id = c ∧ v ∈ com.members) →
      getCommunityPosts s v c limit skip =
        (s, Response.error 401 "Unauthorized to view posts in this community")) ∧
    ((∃ com ∈ s.communities, com._id = c ∧ v ∈ com.members) →
      ∃ (docs : List Post) (total : Nat),
        getCommunityPosts s v c limit skip =
          (s, Response.page 200 (docs.map (populate s)) total) ∧
        ∀ p ∈ docs, p ∈ s.posts ∧ p.community = c ∧
          ∃ ref, (populate s p).community = some ref ∧ ref._id = c) := by
  cases hf : s.communities.find? (isMemberOf c v) with
  | none =>
    have hno := (find_isMemberOf_eq_none s c v).1 hf
    have hrun : getCommunityPosts s v c limit skip =
        (s, Response.error 401 "Unauthorized to view posts in this community") := by
      simp only [getCommunityPosts, hf]
    exact ⟨⟨fun _ => hno, fun _ => ⟨_, _, by rw [hrun]⟩⟩, fun _ => hrun, fun h => absurd h hno⟩
  | some com0 =>
    have hyes : ∃ com ∈ s.communities, com._id = c ∧ v ∈ com.members := by
      by_contra hno
      rw [(find_isMemberOf_eq_none s c v).2 hno] at hf
      cases hf
    have hrun : getCommunityPosts s v c limit skip =
        (s, Response.page 200
          ((limitDocs (limit.getD 10) (skipDocs (skip.getD 0) (sortNewestFirst
            (s.posts.filter (fun p => p.community == c))))).map (populate s))
          (s.posts.filter (fun p => p.community == c)).length) := by
      simp only [getCommunityPosts, hf]
    refine ⟨⟨?_, fun hno => absurd hyes hno⟩, fun hno => absurd hyes hno, fun _ => ?_⟩
    · rintro ⟨status, message, h⟩
      rw [hrun] at h
      cases h
    · refine ⟨_, _, hrun, ?_⟩
      intro p hp
      have h1 := mem_of_mem_skipDocs _ _ _ (mem_of_mem_limitDocs _ _ _ hp)
      rw [mem_sortNewestFirst, List.mem_filter, beq_iff_eq] at h1
      obtain ⟨com, hcom, hid, _⟩ := hyes
      refine ⟨h1.1, h1.2, ?_⟩
      rw [← h1.2] at hid
      obtain ⟨ref, hr, hrid⟩ := populateCommunity_of_exists s p.community ⟨com, hcom, hid⟩
      exact ⟨ref, hr, by rw [hrid, h1.2]⟩

/-- Witness for C4: user 2 reads community 10 of `followStore`. -/
theorem getCommunityPosts_unauthorized_iff_witness :
    (∃ com ∈ followStore.communities, com._id = 10 ∧ 2 ∈ com.members) ∧
    ∃ (docs : List Post) (total : Nat),
      getCommunityPosts followStore 2 10 none none =
        (followStore, Response.page 200 (docs.map (populate followStore)) total) ∧
      ∀ p ∈ docs, p ∈ followStore.posts ∧ p.community = 10 ∧
        ∃ ref, (populate followStore p).community = some ref ∧ ref._id = 10 :=
  ⟨by decide,
    (getCommunityPosts_unauthorized_iff followStore 2 10 none none).2.2 (by decide)⟩

/-! ## Lemmas on conditional updates -/

theorem find_and_of_find {α : Type} (P Q : α → Bool) (l : List α) (a : α)
    (h : l.find? P = some a) (hq : Q a = true) :
    l.find? (fun x => P x && Q x) = some a := by
  induction l with
  | nil => simp at h
  | cons x xs ih =>
    rw [List.find?_cons] at h ⊢
    cases hpx : P x with
    | true =>
      rw [hpx] at h
      cases h
      simp [hq]
    | false =>
      rw [hpx] at h
      simpa using ih h

theorem find_and_eq_none_of_find_eq_none {α : Type} (P Q : α → Bool) (l : List α)
    (h : l.find? P = none) : l.find? (fun x => P x && Q x) = none := by
  rw [List.find?_eq_none] at h ⊢
  intro x hx
  simp [h x hx]

theorem find_updateFirst {α : Type} (P Q : α → Bool) (f : α → α) (l : List α) (a : α)
    (h : l.find? P = some a) (hq : Q a = true) (hp : P (f a) = true) :
    (updateFirst (fun x => P x && Q x) f l).find? P = some (f a) := by
  induction l with
  | nil => simp at h
  | cons x xs ih =>
    rw [List.find?_cons] at h
    cases hpx : P x with
    | true =>
      rw [hpx] at h
      cases h
      simp [updateFirst, hpx, hq, hp]
    | false =>
      rw [hpx] at h
      simp [updateFirst, hpx, ih h]

theorem updateFirst_cancel {α : Type} (P Q R : α → Bool) (f g : α → α) (l : List α) (a : α)
    (h : l.find? P = some a) (hq : Q a = true) (hp : P (f a) = true) (hr : R (f a) = true)
    (hg : g (f a) = a) :
    updateFirst (fun x => P x && R x) g (updateFirst (fun x => P x && Q x) f l) = l := by
  induction l with
  | nil => simp at h
  | cons x xs ih =>
    rw [List.find?_cons] at h
    cases hpx : P x with
    | true =>
      rw [hpx] at h
      cases h
      simp [updateFirst, hpx, hq, hp, hr, hg]
    | false =>
      rw [hpx] at h
      simp [updateFirst, hpx, ih h]

theorem updateFirst_of_fixed {α : Type} (P : α → Bool) (f : α → α) (l : List α) (a : α)
    (h : l.find? P = some a) (hf : f a = a) : updateFirst P f l = l := by
  induction l with
  | nil => rfl
  | cons x xs ih =>
    rw [List.find?_cons] at h
    cases hpx : P x with
    | true =>
      rw [hpx] at h
      cases h
      simp [updateFirst, hpx, hf]
    | false =>
      rw [hpx] at h
      simp [updateFirst, hpx, ih h]

theorem find_updateFirst_same {α : Type} (P : α → Bool) (f : α → α) (l : List α) (a : α)
    (h : l.find? P = some a) (hp : P (f a) = true) :
    (updateFirst P f l).find? P = some (f a) := by
  induction l with
  | nil => simp at h
  | cons x xs ih =>
    rw [List.find?_cons] at h
    cases hpx : P x with
    | true =>
      rw [hpx] at h
      cases h
      simp [updateFirst, hpx, hp]
    | false =>
      rw [hpx] at h
      simp [updateFirst, hpx, ih h]

theorem map_id_updateFirst (P : Post → Bool) (f : Post → Post) (l : List Post)
    (hf : ∀ q, (f q)._id = q._id) :
    (updateFirst P f l).map (fun q => q._id) = l.map (fun q => q._id) := by
  induction l with
  | nil => rfl
  | cons x xs ih =>
    cases hpx : P x with
    | true => simp [updateFirst, hpx, hf]
    | false => simp [updateFirst, hpx, ih]

theorem find_and_eq_none_of_unique (Q : Post → Bool) (l : List Post) (pid : ObjectId) (a : Post)
    (hnd : (l.map (fun q => q._id)).Nodup) (h : l.find? (fun q => q._id == pid) = some a)
    (hq : Q a = false) :
    l.find? (fun q => q._id == pid && Q q) = none := by
  rw [List.find?_eq_none]
  intro x hx hpx
  simp only [Bool.and_eq_true, beq_iff_eq] at hpx
  have ha : a ∈ l := List.mem_of_find?_eq_some h
  have haid : a._id = pid := by simpa using List.find?_some h
  have hxa : x = a := List.inj_on_of_nodup_map hnd hx ha (by rw [hpx.1, haid])
  rw [hxa, hq] at hpx
  exact absurd hpx.2 (by simp)

theorem pull_append_self (u : ObjectId) (xs : List ObjectId) (h : u ∉ xs) :
    pull u (xs ++ [u]) = xs := by
  unfold pull
  rw [List.filter_append]
  have h1 : xs.filter (fun y => y != u) = xs := by
    rw [List.filter_eq_self]
    intro y hy
    simp only [bne_iff_ne, ne_eq]
    rintro rfl
    exact h hy
  simp [h1]

theorem pull_of_not_mem (u : ObjectId) (xs : List ObjectId) (h : u ∉ xs) : pull u xs = xs := by
  unfold pull
  rw [List.filter_eq_self]
  intro y hy
  simp only [bne_iff_ne, ne_eq]
  rintro rfl
  exact h hy

theorem store_eta (s : Store) :
    ({ users := s.users, communities := s.communities, posts := s.posts,
       relationships := s.relationships } : Store) = s := by
  cases s
  rfl

/-! ## Likes -/

theorem likePost_of_not_liked (s : Store) (pid u : ObjectId) (p : Post)
    (hp : findPostById s pid = some p) (hu : u ∉ p.likes) :
    likePost s pid u =
      (⟨s.users, s.communities,
          updateFirst (fun q => q._id == pid && !decide (u ∈ q.likes))
            (fun q => { q with likes := addToSet u q.likes }) s.posts,
          s.relationships⟩,
        Response.likedPost 200
          (populate ⟨s.users, s.communities,
            updateFirst (fun q => q._id == pid && !decide (u ∈ q.likes))
              (fun q => { q with likes := addToSet u q.likes }) s.posts,
            s.relationships⟩ { p with likes := p.likes ++ [u] })
          (savedByCount s p._id)) := by
  have hfind := find_and_of_find (fun q : Post => q._id == pid)
    (fun q => !decide (u ∈ q.likes)) s.posts p hp (by simp [hu])
  simp only [likePost, findOneAndUpdatePost, hfind, addToSet, hu, if_false, savedByCount]

theorem findPostById_likePost_of_not_liked (s : Store) (pid u : ObjectId) (p : Post)
    (hp : findPostById s pid = some p) (hu : u ∉ p.likes) :
    findPostById (likePost s pid u).1 pid = some { p with likes := p.likes ++ [u] } := by
  have hpid : p._id = pid := by
    have := List.find?_some hp
    simpa using this
  rw [likePost_of_not_liked s pid u p hp hu]
  have := find_updateFirst (fun q : Post => q._id == pid) (fun q => !decide (u ∈ q.likes))
    (fun q => { q with likes := addToSet u q.likes }) s.posts p hp (by simp [hu])
    (by simp [hpid])
  simp only [addToSet, hu, if_false] at this
  exact this

theorem likePost_preserves_ids (s : Store) (pid u : ObjectId) :
    (likePost s pid u).1.posts.map (fun q => q._id) = s.posts.map (fun q => q._id) := by
  cases hf : s.posts.find? (fun q => q._id == pid && !decide (u ∈ q.likes)) with
  | none => simp only [likePost, findOneAndUpdatePost, hf]
  | some p =>
    simp only [likePost, findOneAndUpdatePost, hf]
    exact map_id_updateFirst _ _ _ (fun _ => rfl)

theorem unlikePost_preserves_ids (s : Store) (pid u : ObjectId) :
    (unlikePost s pid u).1.posts.map (fun q => q._id) = s.posts.map (fun q => q._id) := by
  cases hf : s.posts.find? (fun q => q._id == pid && decide (u ∈ q.likes)) with
  | none => simp only [unlikePost, findOneAndUpdatePost, hf]
  | some p =>
    simp only [unlikePost, findOneAndUpdatePost, hf]
    exact map_id_updateFirst _ _ _ (fun _ => rfl)

theorem createPost_preserves_unique_ids (s : Store) (u c : ObjectId)
    (body protocol host : String) (files : List String) (newId : ObjectId) (now : Nat)
    (hnd : (s.posts.map (fun q => q._id)).Nodup) :
    ((createPost s u c body protocol host files newId now).1.posts.map
      (fun q => q._id)).Nodup := by
  cases hf : s.communities.find? (isMemberOf c u) with
  | none =>
    simp only [createPost, hf]
    exact hnd
  | some com =>
    cases hsave : savePostDoc s (newPostDoc newId u c body (fileUrlOf protocol host files) now) with
    | none =>
      simp only [createPost, hf, hsave]
      exact hnd
    | some s1 =>
      have hs1 : (s1.posts.map (fun q => q._id)).Nodup := by
        unfold savePostDoc at hsave
        split at hsave
        · cases hsave
        · next hany =>
          cases hsave
          simp only [List.map_append, List.map_cons, List.map_nil]
          rw [List.nodup_append]
          refine ⟨hnd, List.nodup_singleton _, ?_⟩
          intro a ha hb
          rw [List.mem_singleton] at hb
          subst hb
          apply hany
          rw [List.any_eq_true]
          obtain ⟨q, hq, hqid⟩ := List.mem_map.1 ha
          exact ⟨q, hq, by simpa using hqid⟩
      cases hfound : findPostById s1 newId with
      | none =>
        simp only [createPost, hf, hsave, hfound]
        exact hs1
      | some post =>
        simp only [createPost, hf, hsave, hfound]
        exact hs1

theorem likePost_of_liked (s : Store) (pid u : ObjectId) (p : Post)
    (hnd : (s.posts.map (fun q => q._id)).Nodup)
    (hp : findPostById s pid = some p) (hu : u ∈ p.likes) :
    likePost s pid u =
      (s, Response.error 404 "Post not found. It may have been deleted already") := by
  have hfind := find_and_eq_none_of_unique (fun q => !decide (u ∈ q.likes)) s.posts pid p hnd hp
    (by simp [hu])
  simp only [likePost, findOneAndUpdatePost, hfind]

theorem unlikePost_of_not_liked (s : Store) (pid u : ObjectId) (p : Post)
    (hnd : (s.posts.map (fun q => q._id)).Nodup)
    (hp : findPostById s pid = some p) (hu : u ∉ p.likes) :
    unlikePost s pid u =
      (s, Response.error 404 "Post not found. It may have been deleted already") := by
  have hfind := find_and_eq_none_of_unique (fun q => decide (u ∈ q.likes)) s.posts pid p hnd hp
    (by simp [hu])
  simp only [unlikePost, findOneAndUpdatePost, hfind]

/-- C6 (the claim fails): user 1 already likes post 100; `likePost` is refused
with 404 and changes nothing, the following `unlikePost` removes the like, so
the like set `[1]` is not restored. -/
theorem like_then_unlike_not_restored :
    findPostById likeStore 100 = some ⟨100, 2, 10, "hi", none, 5, [1], []⟩ ∧
    likePost likeStore 100 1 =
      (likeStore, Response.error 404 "Post not found. It may have been deleted already") ∧
    findPostById (unlikePost (likePost likeStore 100 1).1 100 1).1 100 =
      some ⟨100, 2, 10, "hi", none, 5, [], []⟩ := by
  decide

/-- C6 (amended): for an existing post `p` that `u` has not liked, `likePost`
answers 200 and appends `u` to the likes, and the following `unlikePost`
answers 200 and restores the whole store, so the like set of `p` is what it was
before the `likePost` call. -/
theorem like_then_unlike_restores (s : Store) (pid u : ObjectId) (p : Post)
    (hp : findPostById s pid = some p) (hu : u ∉ p.likes) :
    (∃ v n, (likePost s pid u).2 = Response.likedPost 200 v n ∧ v.likes = p.likes ++ [u]) ∧
    findPostById (likePost s pid u).1 pid = some { p with likes := p.likes ++ [u] } ∧
    (∃ v n, (unlikePost (likePost s pid u).1 pid u).2 = Response.likedPost 200 v n ∧
      v.likes = p.likes) ∧
    (unlikePost (likePost s pid u).1 pid u).1 = s ∧
    findPostById (unlikePost (likePost s pid u).1 pid u).1 pid = some p := by
  have hpid : p._id = pid := by
    have := List.find?_some hp
    simpa using this
  have hlike := likePost_of_not_liked s pid u p hp hu
  have hfind1 := findPostById_likePost_of_not_liked s pid u p hp hu
  have hfind2 := find_and_of_find (fun q : Post => q._id == pid)
    (fun q => decide (u ∈ q.likes)) (likePost s pid u).1.posts _ hfind1 (by simp)
  have hcancel : updateFirst (fun q : Post => q._id == pid && decide (u ∈ q.likes))
      (fun q => { q with likes := pull u q.likes }) (likePost s pid u).1.posts = s.posts := by
    rw [hlike]
    exact updateFirst_cancel (fun q : Post => q._id == pid) (fun q => !decide (u ∈ q.likes))
      (fun q => decide (u ∈ q.likes)) (fun q => { q with likes := addToSet u q.likes })
      (fun q => { q with likes := pull u q.likes }) s.posts p hp (by simp [hu]) (by simp [hpid])
      (by simp [addToSet, hu]) (by simp [addToSet, hu, pull_append_self])
  have hstore : (unlikePost (likePost s pid u).1 pid u).1 = s := by
    simp only [unlikePost, findOneAndUpdatePost, hfind2, hcancel]
    rw [hlike]
  refine ⟨⟨_, _, by rw [hlike], rfl⟩, hfind1, ?_, hstore, by rw [hstore]; exact hp⟩
  simp only [unlikePost, findOneAndUpdatePost, hfind2]
  exact ⟨_, _, rfl, by simp [populate, pull_append_self, hu]⟩

/-- Witness for C6 (amended): user 2 likes and then unlikes post 100. -/
theorem like_then_unlike_restores_witness :
    findPostById likeStore 100 = some ⟨100, 2, 10, "hi", none, 5, [1], []⟩ ∧ 2 ∉ [1] ∧
    (unlikePost (likePost likeStore 100 2).1 100 2).1 = likeStore :=
  ⟨by decide, by decide,
    (like_then_unlike_restores likeStore 100 2 ⟨100, 2, 10, "hi", none, 5, [1], []⟩
      (by decide) (by decide)).2.2.2.1⟩

/-- C7: in every store, for every post id and user: if post ids are unique and
the user is already in the likes of the post with that id, `likePost` answers
404 and leaves the store unchanged; if post ids are unique and the user is not
in its likes, `unlikePost` answers 404 and leaves the store unchanged; with
unique ids a second `likePost` directly after a first one on an existing post
answers 404 and changes nothing; and for an id that no post has both handlers
give that very answer, so the two causes cannot be told apart. -/
theorem like_unlike_precondition_not_found (s : Store) :
    (∀ (pid u : ObjectId) (p : Post), (s.posts.map (fun x => x._id)).Nodup →
      findPostById s pid = some p → u ∈ p.likes →
      likePost s pid u =
        (s, Response.error 404 "Post not found. It may have been deleted already")) ∧
    (∀ (pid u : ObjectId) (p : Post), (s.posts.map (fun x => x._id)).Nodup →
      findPostById s pid = some p → u ∉ p.likes →
      unlikePost s pid u =
        (s, Response.error 404 "Post not found. It may have been deleted already")) ∧
    (∀ (pid u : ObjectId) (p : Post), (s.posts.map (fun x => x._id)).Nodup →
      findPostById s pid = some p →
      likePost (likePost s pid u).1 pid u =
        ((likePost s pid u).1,
          Response.error 404 "Post not found. It may have been deleted already")) ∧
    (∀ (missing x : ObjectId), findPostById s missing = none →
      likePost s missing x =
        (s, Response.error 404 "Post not found. It may have been deleted already") ∧
      unlikePost s missing x =
        (s, Response.error 404 "Post not found. It may have been deleted already")) := by
  refine ⟨fun pid u p hnd hp hu => likePost_of_liked s pid u p hnd hp hu,
    fun pid u p hnd hp hu => unlikePost_of_not_liked s pid u p hnd hp hu, ?_, ?_⟩
  · intro pid u p hnd hp
    by_cases hu : u ∈ p.likes
    · have h1 := likePost_of_liked s pid u p hnd hp hu
      rw [h1]
      exact h1
    · have h1 := findPostById_likePost_of_not_liked s pid u p hp hu
      refine likePost_of_liked _ pid u _ ?_ h1 (by simp)
      rw [likePost_preserves_ids]
      exact hnd
  · intro missing x hm
    have hl := find_and_eq_none_of_find_eq_none (fun q : Post => q._id == missing)
      (fun q => !decide (x ∈ q.likes)) s.posts hm
    have hul := find_and_eq_none_of_find_eq_none (fun q : Post => q._id == missing)
      (fun q => decide (x ∈ q.likes)) s.posts hm
    constructor
    · simp only [likePost, findOneAndUpdatePost, hl]
    · simp only [unlikePost, findOneAndUpdatePost, hul]

/-- Witness for C7: in `likeStore` user 1 likes post 100 again, user 2 unlikes
it without having liked it and then likes it twice, and post 999 does not
exist; in `followStore`, where no post has a like, user 1 unlikes post 100. -/
theorem like_unlike_precondition_not_found_witness :
    ((likeStore.posts.map (fun x => x._id)).Nodup ∧
      findPostById likeStore 100 = some ⟨100, 2, 10, "hi", none, 5, [1], []⟩ ∧
      1 ∈ [1] ∧ 2 ∉ [1]) ∧
    likePost likeStore 100 1 =
      (likeStore, Response.error 404 "Post not found. It may have been deleted already") ∧
    unlikePost likeStore 100 2 =
      (likeStore, Response.error 404 "Post not found. It may have been deleted already") ∧
    likePost (likePost likeStore 100 2).1 100 2 =
      ((likePost likeStore 100 2).1,
        Response.error 404 "Post not found. It may have been deleted already") ∧
    (findPostById likeStore 999 = none ∧
      likePost likeStore 999 1 =
        (likeStore, Response.error 404 "Post not found. It may have been deleted already") ∧
      unlikePost likeStore 999 1 =
        (likeStore, Response.error 404 "Post not found. It may have been deleted already")) ∧
    ((followStore.posts.map (fun x => x._id)).Nodup ∧
      findPostById followStore 100 = some ⟨100, 2, 10, "hi", none, 5, [], []⟩ ∧
      1 ∉ ([] : List ObjectId) ∧
      unlikePost followStore 100 1 =
        (followStore,
          Response.error 404 "Post not found. It may have been deleted already")) :=
  ⟨⟨by decide, by decide, by decide, by decide⟩,
    (like_unlike_precondition_not_found likeStore).1 100 1
      ⟨100, 2, 10, "hi", none, 5, [1], []⟩ (by decide) (by decide) (by decide),
    (like_unlike_precondition_not_found likeStore).2.1 100 2
      ⟨100, 2, 10, "hi", none, 5, [1], []⟩ (by decide) (by decide) (by decide),
    (like_unlike_precondition_not_found likeStore).2.2.1 100 2
      ⟨100, 2, 10, "hi", none, 5, [1], []⟩ (by decide) (by decide),
    ⟨by decide, (like_unlike_precondition_not_found likeStore).2.2.2 999 1 (by decide)⟩,
    ⟨by decide, by decide, by decide,
      (like_unlike_precondition_not_found followStore).2.1 100 1
        ⟨100, 2, 10, "hi", none, 5, [], []⟩ (by decide) (by decide) (by decide)⟩⟩

/-! ## Saved posts -/

theorem addToSet_of_mem (x : ObjectId) (xs : List ObjectId) (h : x ∈ xs) :
    addToSet x xs = xs := by
  simp [addToSet, h]

theorem mem_addToSet_self (x : ObjectId) (xs : List ObjectId) : x ∈ addToSet x xs := by
  unfold addToSet
  split
  · assumption
  · simp

theorem count_addToSet_self (x : ObjectId) (xs : List ObjectId) (hnd : xs.Nodup) :
    (addToSet x xs).count x = 1 := by
  unfold addToSet
  split
  · next h => exact List.count_eq_one_of_mem hnd h
  · next h => simp [List.count_eq_zero_of_not_mem h]

theorem savePost_of_user (s : Store) (p u : ObjectId) (user : User)
    (hu : findUserById s u = some user) :
    savePost s p u =
      (⟨updateFirst (fun x => x._id == u)
          (fun x => { x with savedPosts := addToSet p x.savedPosts }) s.users,
          s.communities, s.posts, s.relationships⟩,
        Response.savedList 200
          (populateSavedPosts ⟨updateFirst (fun x => x._id == u)
            (fun x => { x with savedPosts := addToSet p x.savedPosts }) s.users,
            s.communities, s.posts, s.relationships⟩ (addToSet p user.savedPosts))) := by
  unfold findUserById at hu
  simp only [savePost, saveOrUnsavePost, findOneAndUpdateUser, hu, if_true]

theorem findUserById_savePost (s : Store) (p u : ObjectId) (user : User)
    (hu : findUserById s u = some user) :
    findUserById (savePost s p u).1 u =
      some { user with savedPosts := addToSet p user.savedPosts } := by
  have huid : user._id = u := by
    have := List.find?_some hu
    simpa using this
  rw [savePost_of_user s p u user hu]
  exact find_updateFirst_same (fun x : User => x._id == u)
    (fun x => { x with savedPosts := addToSet p x.savedPosts }) s.users user hu (by simp [huid])

/-- C5: for an existing user whose saved list has no duplicates, after two
`savePost` calls for `p` the saved list holds `p` exactly once and the second
call left the store as the first one made it; `unsavePost` for a `q` that is
not in the saved list leaves the store unchanged and answers 200 with the
populated, unchanged saved list. -/
theorem savePost_twice_and_unsave_absent (s : Store) (u p q : ObjectId) (user : User)
    (hu : findUserById s u = some user) (hnd : user.savedPosts.Nodup)
    (hq : q ∉ user.savedPosts) :
    (∃ user2, findUserById (savePost (savePost s p u).1 p u).1 u = some user2 ∧
      user2.savedPosts.count p = 1) ∧
    (savePost (savePost s p u).1 p u).1 = (savePost s p u).1 ∧
    unsavePost s q u = (s, Response.savedList 200 (populateSavedPosts s user.savedPosts)) := by
  have h1 := findUserById_savePost s p u user hu
  have hfix : (fun x : User => { x with savedPosts := addToSet p x.savedPosts })
      { user with savedPosts := addToSet p user.savedPosts } =
      { user with savedPosts := addToSet p user.savedPosts } := by
    simp [addToSet_of_mem p _ (mem_addToSet_self p user.savedPosts)]
  have hsame : (savePost (savePost s p u).1 p u).1 = (savePost s p u).1 := by
    rw [savePost_of_user (savePost s p u).1 p u _ h1]
    simp only
    unfold findUserById at h1
    rw [updateFirst_of_fixed _ _ _ _ h1 hfix]
  refine ⟨⟨_, by rw [hsame]; exact h1, count_addToSet_self p _ hnd⟩, hsame, ?_⟩
  unfold findUserById at hu
  have hne : ¬ ("$pull" = "$addToSet") := by decide
  simp only [unsavePost, saveOrUnsavePost, findOneAndUpdateUser, hu, hne, if_false]
  have hfixq : (fun x : User => { x with savedPosts := pull q x.savedPosts }) user = user := by
    simp [pull_of_not_mem q _ hq]
  rw [updateFirst_of_fixed _ _ _ _ hu hfixq]
  simp [pull_of_not_mem q _ hq, store_eta]

/-- Witness for C5: in `likeStore` user 2, whose saved list is empty, saves
post 100 twice and unsaves post 7. -/
theorem savePost_twice_and_unsave_absent_witness :
    findUserById likeStore 2 = some ⟨2, "bob", "b.png", []⟩ ∧
    ([] : List ObjectId).Nodup ∧ 7 ∉ ([] : List ObjectId) ∧
    (savePost (savePost likeStore 100 2).1 100 2).1 = (savePost likeStore 100 2).1 ∧
    unsavePost likeStore 7 2 =
      (likeStore, Response.savedList 200 (populateSavedPosts likeStore [])) :=
  ⟨by decide, by decide, by decide,
    (savePost_twice_and_unsave_absent likeStore 2 100 7 ⟨2, "bob", "b.png", []⟩
      (by decide) (by decide) (by decide)).2.1,
    (savePost_twice_and_unsave_absent likeStore 2 100 7 ⟨2, "bob", "b.png", []⟩
      (by decide) (by decide) (by decide)).2.2⟩

/-- C8: for an existing user, `getSavedPosts` answers 200 with the stored
posts, in store order, whose id is in the saved list and whose community id is
that of a community the user is a member of; the store, and so the saved list,
is unchanged, and a saved post of a community without the user is left out
although its id is still in the saved list. -/
theorem getSavedPosts_exact (s : Store) (u : ObjectId) (user : User)
    (hu : findUserById s u = some user) :
    getSavedPosts s u =
      (s, Response.posts 200 ((s.posts.filter (fun p =>
        decide (p._id ∈ user.savedPosts ∧
          ∃ com ∈ s.communities, com._id = p.community ∧ u ∈ com.members))).map
            (populate s))) ∧
    findUserById (getSavedPosts s u).1 u = some user ∧
    (∀ p ∈ s.posts, p._id ∈ user.savedPosts →
      (¬ ∃ com ∈ s.communities, com._id = p.community ∧ u ∈ com.members) →
      p ∉ s.posts.filter (fun p =>
        decide (p._id ∈ user.savedPosts ∧
          ∃ com ∈ s.communities, com._id = p.community ∧ u ∈ com.members)) ∧
      ∃ user1, findUserById (getSavedPosts s u).1 u = some user1 ∧
        p._id ∈ user1.savedPosts) := by
  have hfilter : s.posts.filter (fun p =>
        decide (p.community ∈ (communityIdsOf s u).dedup) && decide (p._id ∈ user.savedPosts)) =
      s.posts.filter (fun p =>
        decide (p._id ∈ user.savedPosts ∧
          ∃ com ∈ s.communities, com._id = p.community ∧ u ∈ com.members)) := by
    apply List.filter_congr
    intro p _
    rw [← Bool.decide_and, decide_eq_decide, List.mem_dedup, mem_communityIdsOf]
    exact And.comm
  have hrun : getSavedPosts s u =
      (s, Response.posts 200 ((s.posts.filter (fun p =>
        decide (p._id ∈ user.savedPosts ∧
          ∃ com ∈ s.communities, com._id = p.community ∧ u ∈ com.members))).map
            (populate s))) := by
    simp only [getSavedPosts, hu, hfilter]
  refine ⟨hrun, by rw [hrun]; exact hu, ?_⟩
  intro p _ hsaved hno
  refine ⟨?_, user, by rw [hrun]; exact hu, hsaved⟩
  rw [List.mem_filter, decide_eq_true_eq]
  exact fun h => hno h.2.2

/-- Witness for C8: user 1 of `feedStore` saved posts 100 and 200 and is a
member of the community of post 100 only. -/
theorem getSavedPosts_exact_witness :
    findUserById feedStore 1 = some ⟨1, "ann", "a.png", [100, 200]⟩ ∧
    getSavedPosts feedStore 1 =
      (feedStore, Response.posts 200 ((feedStore.posts.filter (fun p =>
        decide (p._id ∈ [100, 200] ∧
          ∃ com ∈ feedStore.communities, com._id = p.community ∧ 1 ∈ com.members))).map
            (populate feedStore))) :=
  ⟨by decide, (getSavedPosts_exact feedStore 1 ⟨1, "ann", "a.png", [100, 200]⟩ (by decide)).1⟩

/-! ## Public profile feed -/

/-- C9: without a follow edge from `v` to `t`, `getPublicPosts` writes no
response (the handler returns `null`) and is no error; with the edge it answers
200 with the first ten of a newest-first arrangement of exactly the stored
posts authored by `t` whose community id is that of a community having both
`v` and `t` as members. -/
theorem getPublicPosts_spec (s : Store) (v t : ObjectId) :
    ((¬ ∃ r ∈ s.relationships, r.follower = v ∧ r.following = t) →
      getPublicPosts s v t = (s, Response.noResponse)) ∧
    ((∃ r ∈ s.relationships, r.follower = v ∧ r.following = t) →
      ∃ sorted : List Post,
        sorted.Sorted (fun a b => b.createdAt ≤ a.createdAt) ∧
        sorted.Perm (s.posts.filter (fun p =>
          decide (p.user = t ∧
            ∃ com ∈ s.communities, com._id = p.community ∧ v ∈ com.members ∧ t ∈ com.members))) ∧
        getPublicPosts s v t = (s, Response.posts 200 ((sorted.take 10).map (populate s))) ∧
        ((sorted.take 10).map (populate s)).length ≤ 10) := by
  have hany : s.relationships.any (fun r => r.follower == v && r.following == t) = true ↔
      ∃ r ∈ s.relationships, r.follower = v ∧ r.following = t := by
    simp [List.any_eq_true]
  constructor
  · intro hno
    have : s.relationships.any (fun r => r.follower == v && r.following == t) = false := by
      rw [← Bool.not_eq_true, hany]
      exact hno
    simp only [getPublicPosts, this, Bool.not_false, if_true]
  · intro hyes
    have hfilter : s.posts.filter (fun p =>
          decide (p.community ∈ ((s.communities.filter
            (fun c => decide (v ∈ c.members) && decide (t ∈ c.members))).map
              (fun c => c._id)).dedup) && p.user == t) =
        s.posts.filter (fun p =>
          decide (p.user = t ∧
            ∃ com ∈ s.communities, com._id = p.community ∧ v ∈ com.members ∧ t ∈ com.members)) := by
      apply List.filter_congr
      intro p _
      rw [Bool.eq_iff_iff]
      simp only [Bool.and_eq_true, decide_eq_true_eq, beq_iff_eq, List.mem_dedup, List.mem_map,
        List.mem_filter]
      constructor
      · rintro ⟨⟨com, ⟨hmem, hv, ht⟩, hid⟩, hpu⟩
        exact ⟨hpu, com, hmem, hid, hv, ht⟩
      · rintro ⟨hpu, com, hmem, hid, hv, ht⟩
        exact ⟨⟨com, ⟨hmem, hv, ht⟩, hid⟩, hpu⟩
    refine ⟨sortNewestFirst (s.posts.filter (fun p =>
          decide (p.user = t ∧
            ∃ com ∈ s.communities, com._id = p.community ∧ v ∈ com.members ∧ t ∈ com.members))),
      sortNewestFirst_sorted _, sortNewestFirst_perm _, ?_, ?_⟩
    · simp only [getPublicPosts, hany.2 hyes, Bool.not_true, hfilter, limitDocs]
      simp
    · simp [List.length_take]

/-- Witness for C9: in `feedStore` user 1 follows user 2. -/
theorem getPublicPosts_spec_witness :
    (∃ r ∈ feedStore.relationships, r.follower = 1 ∧ r.following = 2) ∧
    ∃ sorted : List Post,
      sorted.Sorted (fun a b => b.createdAt ≤ a.createdAt) ∧
      sorted.Perm (feedStore.posts.filter (fun p =>
        decide (p.user = 2 ∧
          ∃ com ∈ feedStore.communities,
            com._id = p.community ∧ 1 ∈ com.members ∧ 2 ∈ com.members))) ∧
      getPublicPosts feedStore 1 2 =
        (feedStore, Response.posts 200 ((sorted.take 10).map (populate feedStore))) ∧
      ((sorted.take 10).map (populate feedStore)).length ≤ 10 :=
  ⟨by decide, (getPublicPosts_spec feedStore 1 2).2 (by decide)⟩

/-! ## Pagination -/

/-- C10 (the claim fails): with `limit = 0` the home feed of user 2 is not cut
to at most 0 posts; all three visible posts are returned. -/
theorem getPosts_limit_zero_not_truncated :
    getPosts feedStore 2 (some 0) (some 0) =
      (feedStore, Response.page 200
        ([⟨300, 2, 10, "ok", none, 7, [], []⟩, ⟨200, 2, 20, "yo", none, 6, [], []⟩,
          ⟨100, 2, 10, "hi", none, 5, [], []⟩].map (populate feedStore)) 3) ∧
    ¬ (([⟨300, 2, 10, "ok", none, 7, [], []⟩, ⟨200, 2, 20, "yo", none, 6, [], []⟩,
          ⟨100, 2, 10, "hi", none, 5, [], []⟩].map (populate feedStore)).length ≤ 0) := by
  decide

/-- C10 (amended): for every viewer `v`, with `skip` and `limit` defaulting to
0 and 10, `getPosts` answers 200 with a newest-first arrangement of the posts
visible to `v`, the first `skip` dropped and then, when `limit` is positive, at
most `limit` kept (a `limit` of 0 keeps them all), together with the number of
all visible posts; and whenever `v` is a member of a community with id `c`,
`getCommunityPosts` does the same with the posts of community `c`. -/
theorem feed_pagination (s : Store) (v c : ObjectId) (limit skip : Option Nat) :
    (∃ sorted : List Post,
      sorted.Sorted (fun a b => b.createdAt ≤ a.createdAt) ∧
      sorted.Perm (s.posts.filter (fun p =>
        decide (∃ com ∈ s.communities, com._id = p.community ∧ v ∈ com.members))) ∧
      getPosts s v limit skip =
        (s, Response.page 200
          ((if limit.getD 10 = 0 then sorted.drop (skip.getD 0)
            else (sorted.drop (skip.getD 0)).take (limit.getD 10)).map (populate s))
          (s.posts.filter (fun p =>
            decide (∃ com ∈ s.communities, com._id = p.community ∧ v ∈ com.members))).length)) ∧
    ((∃ com ∈ s.communities, com._id = c ∧ v ∈ com.members) →
      ∃ sorted : List Post,
        sorted.Sorted (fun a b => b.createdAt ≤ a.createdAt) ∧
        sorted.Perm (s.posts.filter (fun p => decide (p.community = c))) ∧
        getCommunityPosts s v c limit skip =
          (s, Response.page 200
            ((if limit.getD 10 = 0 then sorted.drop (skip.getD 0)
              else (sorted.drop (skip.getD 0)).take (limit.getD 10)).map (populate s))
            (s.posts.filter (fun p => decide (p.community = c))).length)) := by
  constructor
  · refine ⟨sortNewestFirst (s.posts.filter (fun p =>
        decide (∃ com ∈ s.communities, com._id = p.community ∧ v ∈ com.members))),
      sortNewestFirst_sorted _, sortNewestFirst_perm _, ?_⟩
    simp only [getPosts, filter_member_communities, limitDocs, skipDocs]
  · intro hmem
    have hfilter : s.posts.filter (fun p => p.community == c) =
        s.posts.filter (fun p => decide (p.community = c)) := by
      apply List.filter_congr
      intro p _
      rw [Bool.eq_iff_iff]
      simp
    cases hf : s.communities.find? (isMemberOf c v) with
    | none => exact absurd hmem ((find_isMemberOf_eq_none s c v).1 hf)
    | some com0 =>
      refine ⟨sortNewestFirst (s.posts.filter (fun p => decide (p.community = c))),
        sortNewestFirst_sorted _, sortNewestFirst_perm _, ?_⟩
      simp only [getCommunityPosts, hf, hfilter, limitDocs, skipDocs]

/-- Witness for C10 (amended): user 2 reads community 10 of `feedStore` with
`skip = 1` and `limit = 1`; user 1 of `followStore`, a member of no community,
reads the home feed with the defaults. -/
theorem feed_pagination_witness :
    ((∃ com ∈ feedStore.communities, com._id = 10 ∧ 2 ∈ com.members) ∧
      ∃ sorted : List Post,
        sorted.Sorted (fun a b => b.createdAt ≤ a.createdAt) ∧
        sorted.Perm (feedStore.posts.filter (fun p => decide (p.community = 10))) ∧
        getCommunityPosts feedStore 2 10 (some 1) (some 1) =
          (feedStore, Response.page 200
            ((if (some 1).getD 10 = 0 then sorted.drop ((some 1).getD 0)
              else (sorted.drop ((some 1).getD 0)).take ((some 1).getD 10)).map
                (populate feedStore))
            (feedStore.posts.filter (fun p => decide (p.community = 10))).length)) ∧
    ((¬ ∃ com ∈ followStore.communities, 1 ∈ com.members) ∧
      ∃ sorted : List Post,
        sorted.Sorted (fun a b => b.createdAt ≤ a.createdAt) ∧
        sorted.Perm (followStore.posts.filter (fun p =>
          decide (∃ com ∈ followStore.communities,
            com._id = p.community ∧ 1 ∈ com.members))) ∧
        getPosts followStore 1 none none =
          (followStore, Response.page 200
            ((if (none : Option Nat).getD 10 = 0 then sorted.drop ((none : Option Nat).getD 0)
              else (sorted.drop ((none : Option Nat).getD 0)).take
                ((none : Option Nat).getD 10)).map (populate followStore))
            (followStore.posts.filter (fun p =>
              decide (∃ com ∈ followStore.communities,
                com._id = p.community ∧ 1 ∈ com.members))).length)) :=
  ⟨⟨by decide, (feed_pagination feedStore 2 10 (some 1) (some 1)).2 (by decide)⟩,
    ⟨by decide, (feed_pagination followStore 1 10 none none).1⟩⟩

end SocialEcho
